import Mathlib

/-!
The EtcdBackup reconciler.

A shallow embedding of `controllers/etcdbackup_controller.go`: the observed-state
reader (`getState`, `setStateActual`, `setStateDesired`, `podForBackup`) and the
ordered decision switch of `Reconcile`, followed by theorems about them.

Go pointers that may be nil are `Option`s, a nil dereference is the explicit
fault `RuntimePanic.nilPointerDereference`, and a non-nil Go `error` is the
formatted message it carries.  Calls to the logger have no effect on
the result and are left out.
-/

namespace EtcdOperator

/-! ## Data model -/

/-- Instant of `metav1.Time`: seconds and nanoseconds since the zero instant. -/
structure Time where
  sec : Int
  nsec : Int
  deriving DecidableEq, Repr

/-- Method `(*metav1.Time).IsZero`: a nil pointer and the zero instant are both zero. -/
def Time.IsZero : Option Time → Bool
  | none => true
  | some t => t.sec == 0 && t.nsec == 0

/-- Entry of `metav1.OwnerReference`. -/
structure OwnerReference where
  APIVersion : String
  Kind : String
  Name : String
  UID : String
  Controller : Option Bool
  BlockOwnerDeletion : Option Bool
  deriving DecidableEq, Repr

/-- Fields of `metav1.ObjectMeta` that the controller reads or writes. -/
structure ObjectMeta where
  Name : String
  Namespace : String
  UID : String
  DeletionTimestamp : Option Time
  OwnerReferences : List OwnerReference
  deriving DecidableEq, Repr

/-- Modelled from the spec: the type `EtcdBackupPhase` is declared in the API
package file for EtcdBackup, which is not among the sources; the controller
compares it with the string literal `""`, and the spec lists it as the string
enum `""`, `"BackingUp"`, `"Failed"`, `"Completed"`. -/
abbrev EtcdBackupPhase := String

/-- Modelled from the spec: constant `EtcdBackupPhaseBackingUp` of the missing
EtcdBackup API file. -/
def EtcdBackupPhaseBackingUp : EtcdBackupPhase := "BackingUp"

/-- Modelled from the spec: constant `EtcdBackupPhaseFailed` of the missing
EtcdBackup API file. -/
def EtcdBackupPhaseFailed : EtcdBackupPhase := "Failed"

/-- Modelled from the spec: constant `EtcdBackupPhaseCompleted` of the missing
EtcdBackup API file. -/
def EtcdBackupPhaseCompleted : EtcdBackupPhase := "Completed"

/-- Modelled from the spec: the four values the spec declares for
`status.phase` (the enum of the missing EtcdBackup API file). -/
def EtcdBackupPhase.declared (p : EtcdBackupPhase) : Prop :=
  p = "" ∨ p = EtcdBackupPhaseBackingUp ∨ p = EtcdBackupPhaseFailed ∨ p = EtcdBackupPhaseCompleted

instance (p : EtcdBackupPhase) : Decidable (EtcdBackupPhase.declared p) := by
  unfold EtcdBackupPhase.declared; infer_instance

/-- Modelled from the spec: the fields of `EtcdBackupSpec` (missing EtcdBackup
API file) that `podForBackup` reads. -/
structure EtcdBackupSpec where
  BackupImage : String
  Endpoints : String
  deriving DecidableEq, Repr

/-- Modelled from the spec: `EtcdBackupStatus` of the missing EtcdBackup API file. -/
structure EtcdBackupStatus where
  Phase : EtcdBackupPhase
  deriving DecidableEq, Repr

/-- Modelled from the spec: the `EtcdBackup` resource of the missing EtcdBackup
API file, with its embedded `ObjectMeta`. -/
structure EtcdBackup where
  ObjectMeta : ObjectMeta
  Spec : EtcdBackupSpec
  Status : EtcdBackupStatus
  deriving DecidableEq, Repr

/-- Promoted field `backup.Name`. -/
abbrev EtcdBackup.Name (b : EtcdBackup) : String := b.ObjectMeta.Name

/-- Promoted field `backup.Namespace`. -/
abbrev EtcdBackup.Namespace (b : EtcdBackup) : String := b.ObjectMeta.Namespace

/-- Promoted field `backup.DeletionTimestamp`. -/
abbrev EtcdBackup.DeletionTimestamp (b : EtcdBackup) : Option Time := b.ObjectMeta.DeletionTimestamp

/-- Method `DeepCopy` followed by the assignment `newBackup.Status.Phase = p`:
values are immutable here, so the copy is the record itself. -/
def EtcdBackup.withPhase (b : EtcdBackup) (p : EtcdBackupPhase) : EtcdBackup :=
  { b with Status := { b.Status with Phase := p } }

/-- Value of `resource.Quantity`, kept as the literal given to `resource.MustParse`. -/
structure Quantity where
  literal : String
  deriving DecidableEq, Repr

/-- Function `resource.MustParse` on a well-formed literal. -/
def MustParse (s : String) : Quantity := ⟨s⟩

/-- Name of a resource, `corev1.ResourceName`. -/
abbrev ResourceName := String

def ResourceCPU : ResourceName := "cpu"
def ResourceMemory : ResourceName := "memory"

/-- Value of `corev1.ResourceRequirements`; each map is the list of its entries
in the order of the map literal. -/
structure ResourceRequirements where
  Requests : List (ResourceName × Quantity)
  Limits : List (ResourceName × Quantity)
  deriving DecidableEq, Repr

/-- Fields of `corev1.Container` set by the controller. -/
structure Container where
  Name : String
  Image : String
  Args : List String
  Resources : ResourceRequirements
  deriving DecidableEq, Repr

/-- Value of `corev1.RestartPolicy`. -/
abbrev RestartPolicy := String

def RestartPolicyNever : RestartPolicy := "Never"

/-- Value of `corev1.PodPhase`. -/
abbrev PodPhase := String

def PodPending : PodPhase := "Pending"
def PodRunning : PodPhase := "Running"
def PodSucceeded : PodPhase := "Succeeded"
def PodFailed : PodPhase := "Failed"

structure PodSpec where
  Containers : List Container
  RestartPolicy : RestartPolicy
  deriving DecidableEq, Repr

structure PodStatus where
  Phase : PodPhase
  deriving DecidableEq, Repr

/-- Fields of `corev1.Pod` the controller reads or writes. -/
structure Pod where
  ObjectMeta : ObjectMeta
  Spec : PodSpec
  Status : PodStatus
  deriving DecidableEq, Repr

/-- Struct `backupStateContainer`: `pod` is a pointer and may be nil. -/
structure backupStateContainer where
  pod : Option Pod
  deriving DecidableEq, Repr

/-- Struct `backupState`: all three fields are pointers and may be nil. -/
structure backupState where
  backup : Option EtcdBackup
  actual : Option backupStateContainer
  desired : Option backupStateContainer
  deriving DecidableEq, Repr

/-- The two implementations of the `Action` interface built by `Reconcile`.  The
`client` field is the client of the reconciler in both and is not repeated. -/
inductive Action where
  | PatchStatus (original new : EtcdBackup)
  | CreateObject (obj : Option Pod)
  deriving DecidableEq, Repr

/-- Fault raised by the Go runtime. -/
inductive RuntimePanic where
  | nilPointerDereference
  deriving DecidableEq, Repr

/-! ## The control-plane client and the scheme -/

/-- Key of an object, `types.NamespacedName` (also `client.ObjectKey`). -/
structure NamespacedName where
  Namespace : String
  Name : String
  deriving DecidableEq, Repr

/-- Request of a reconcile call, `ctrl.Request`. -/
structure Request where
  NamespacedName : NamespacedName
  deriving DecidableEq, Repr

/-- Outcome of `client.Get`: the object, a not-found error, or any other error
with its message. -/
inductive GetResult (α : Type) where
  | found (obj : α)
  | notFound
  | failed (msg : String)
  deriving DecidableEq, Repr

/-- Group, version and kind of a type, `schema.GroupVersionKind`. -/
structure GroupVersionKind where
  Group : String
  Version : String
  Kind : String
  deriving DecidableEq, Repr

/-- Scheme of the reconciler, reduced to its answer for the EtcdBackup type:
the kinds registered for it. -/
structure Scheme where
  etcdBackupKinds : List GroupVersionKind
  deriving DecidableEq, Repr

/-- Reads of the control plane as seen during one reconcile call, and the
answer of the control plane to the execution of an action (`Action.Execute`
is defined outside the controller file). -/
structure Client where
  getEtcdBackup : NamespacedName → GetResult EtcdBackup
  getPod : NamespacedName → GetResult Pod
  execute : Action → Option String

/-- Struct `EtcdBackupReconciler` without its logger. -/
structure EtcdBackupReconciler where
  Client : Client
  Scheme : Scheme

deriving instance DecidableEq for Except

/-- Result of a Go call that returns `(value, error)` or panics. -/
inductive Result (α : Type) where
  | ok (v : α)
  | err (msg : String)
  | panic (p : RuntimePanic)
  deriving DecidableEq, Repr

/-- What one call of `Reconcile` did: the actions whose `Execute` it called, in
order, and the error it returned (`none` for a nil error). -/
structure ReconcileOutcome where
  executed : List Action
  err : Option String
  deriving DecidableEq, Repr

/-! ## Owner references (`controllerutil.SetControllerReference`)

The function belongs to controller-runtime; it is followed here step by step:
owner validation, kind lookup in the scheme, the already-controlled check and
the insertion of the reference. -/

/-- Method `GroupVersion.String`. -/
def GroupVersionKind.groupVersionString (gvk : GroupVersionKind) : String :=
  if gvk.Group.length > 0 then gvk.Group ++ "/" ++ gvk.Version else gvk.Version

/-- Function `apiutil.GVKForObject` for an EtcdBackup owner. -/
def GVKForObject (scheme : Scheme) : Except String GroupVersionKind :=
  match scheme.etcdBackupKinds with
  | [] => .error "no kind is registered for the type v1alpha1.EtcdBackup"
  | [gvk] => .ok gvk
  | _ => .error "multiple group-version-kinds associated with type v1alpha1.EtcdBackup, refusing to guess at one"

/-- Function `validateOwner`: a namespaced owner needs an object of its own namespace. -/
def validateOwner (owner : EtcdBackup) (object : Pod) : Except String Unit :=
  let ownerNs := owner.Namespace
  if ownerNs ≠ "" then
    let objNs := object.ObjectMeta.Namespace
    if objNs = "" then
      .error ("cluster-scoped resource must not have a namespace-scoped owner, owner namespace " ++ ownerNs)
    else if ownerNs ≠ objNs then
      .error ("cross-namespace owner references are disallowed, owner namespace " ++ ownerNs
        ++ ", object namespace " ++ objNs)
    else .ok ()
  else .ok ()

/-- Group part of an `apiVersion` string, as `schema.ParseGroupVersion` reads it;
`none` when the string has more than one slash. -/
def parseGroup (apiVersion : String) : Option String :=
  match apiVersion.splitOn "/" with
  | [_] => some ""
  | [g, _] => some g
  | _ => none

/-- Function `referSameObject`: same group, kind and name. -/
def referSameObject (a b : OwnerReference) : Bool :=
  match parseGroup a.APIVersion, parseGroup b.APIVersion with
  | some ga, some gb => ga == gb && a.Kind == b.Kind && a.Name == b.Name
  | _, _ => false

/-- Function `metav1.GetControllerOf`: the first reference flagged as controller. -/
def GetControllerOf (controlled : Pod) : Option OwnerReference :=
  controlled.ObjectMeta.OwnerReferences.find? (fun ref => ref.Controller == some true)

/-- Function `upsertOwnerRef`: replace the reference to the same object, or append. -/
def upsertOwnerRef (ref : OwnerReference) (owners : List OwnerReference) : List OwnerReference :=
  match owners.findIdx? (fun r => referSameObject r ref) with
  | some idx => owners.set idx ref
  | none => owners ++ [ref]

/-- Function `controllerutil.SetControllerReference` with an EtcdBackup owner and
a Pod as the controlled object; the updated pod is returned. -/
def SetControllerReference (owner : EtcdBackup) (controlled : Pod) (scheme : Scheme) :
    Except String Pod :=
  match validateOwner owner controlled with
  | .error e => .error e
  | .ok () =>
    match GVKForObject scheme with
    | .error e => .error e
    | .ok gvk =>
      let ref : OwnerReference :=
        { APIVersion := gvk.groupVersionString
          Kind := gvk.Kind
          Name := owner.Name
          UID := owner.ObjectMeta.UID
          BlockOwnerDeletion := some true
          Controller := some true }
      match GetControllerOf controlled with
      | some existing =>
        if !referSameObject existing ref then
          .error ("Object " ++ controlled.ObjectMeta.Namespace ++ "/" ++ controlled.ObjectMeta.Name
            ++ " is already owned by another " ++ existing.Kind ++ " controller " ++ existing.Name)
        else
          .ok { controlled with ObjectMeta := { controlled.ObjectMeta with
                  OwnerReferences := upsertOwnerRef ref controlled.ObjectMeta.OwnerReferences } }
      | none =>
        .ok { controlled with ObjectMeta := { controlled.ObjectMeta with
                OwnerReferences := upsertOwnerRef ref controlled.ObjectMeta.OwnerReferences } }

/-! ## The state reader -/

/-- Function `podForBackup`: the pod that performs the backup. -/
def podForBackup (backup : EtcdBackup) : Pod :=
  { ObjectMeta :=
      { Name := backup.Name
        Namespace := backup.Namespace
        UID := ""
        DeletionTimestamp := none
        OwnerReferences := [] }
    Spec :=
      { Containers :=
          [ { Name := "etcd-backup"
              Image := backup.Spec.BackupImage
              Args := ["--etcd-endpoints", backup.Spec.Endpoints]
              Resources :=
                { Requests := [(ResourceCPU, MustParse "100m"), (ResourceMemory, MustParse "100Mi")]
                  Limits := [(ResourceCPU, MustParse "500m"), (ResourceMemory, MustParse "500Mi")] } } ]
        RestartPolicy := RestartPolicyNever }
    Status := { Phase := "" } }

/-- Method `setStateActual`: fetch the pod that has the key of the backup. -/
def setStateActual (r : EtcdBackupReconciler) (state : backupState) : Result backupState :=
  match state.backup with
  | none => .panic .nilPointerDereference
  | some backup =>
    let key : NamespacedName := { Name := backup.Name, Namespace := backup.Namespace }
    match r.Client.getPod key with
    | .failed err => .err ("getting pod error: " ++ err)
    | .notFound => .ok { state with actual := some { pod := none } }
    | .found pod => .ok { state with actual := some { pod := some pod } }

/-- Method `setStateDesired`: build the pod of the backup and make the backup its controller. -/
def setStateDesired (r : EtcdBackupReconciler) (state : backupState) : Result backupState :=
  match state.backup with
  | none => .panic .nilPointerDereference
  | some backup =>
    let pod := podForBackup backup
    match SetControllerReference backup pod r.Scheme with
    | .error err => .err ("setting controller reference error: " ++ err)
    | .ok pod => .ok { state with desired := some { pod := some pod } }

/-- Method `getState`: the backup, then the actual and the desired state. -/
def getState (r : EtcdBackupReconciler) (req : Request) : Result backupState :=
  match r.Client.getEtcdBackup req.NamespacedName with
  | .failed err => .err ("getting backup object error: " ++ err)
  | .notFound => .ok { backup := none, actual := none, desired := none }
  | .found backup =>
    let state : backupState := { backup := some backup, actual := none, desired := none }
    match setStateActual r state with
    | .panic p => .panic p
    | .err err => .err ("setting actual state error: " ++ err)
    | .ok state =>
      match setStateDesired r state with
      | .panic p => .panic p
      | .err err => .err ("setting desired state error: " ++ err)
      | .ok state => .ok state

/-! ## The decision switch and `Reconcile` -/

/-- The `switch` statement of `Reconcile`: the cases are tried in order and the
first one that holds decides the action; `none` is the nil action. -/
def switchAction (state : backupState) : Except RuntimePanic (Option Action) :=
  match state.backup with
  | none => .ok none
  | some backup =>
    if !Time.IsZero backup.DeletionTimestamp then .ok none
    else if backup.Status.Phase = "" then
      .ok (some (.PatchStatus backup (backup.withPhase EtcdBackupPhaseBackingUp)))
    else if backup.Status.Phase = EtcdBackupPhaseFailed then .ok none
    else if backup.Status.Phase = EtcdBackupPhaseCompleted then .ok none
    else
      match state.actual with
      | none => .error .nilPointerDereference
      | some actual =>
        match actual.pod with
        | none =>
          match state.desired with
          | none => .error .nilPointerDereference
          | some desired => .ok (some (.CreateObject desired.pod))
        | some pod =>
          if pod.Status.Phase = PodFailed then
            .ok (some (.PatchStatus backup (backup.withPhase EtcdBackupPhaseFailed)))
          else if pod.Status.Phase = PodSucceeded then
            .ok (some (.PatchStatus backup (backup.withPhase EtcdBackupPhaseCompleted)))
          else .ok none

/-- Method `Reconcile`: read the state, decide, and execute the action if there is one. -/
def Reconcile (r : EtcdBackupReconciler) (req : Request) : Except RuntimePanic ReconcileOutcome :=
  match getState r req with
  | .panic p => .error p
  | .err err => .ok { executed := [], err := some err }
  | .ok state =>
    match switchAction state with
    | .error p => .error p
    | .ok none => .ok { executed := [], err := none }
    | .ok (some action) =>
      match r.Client.execute action with
      | some err => .ok { executed := [action], err := some err }
      | none => .ok { executed := [action], err := none }

/-- Modelled from the spec: the observed state after the effect of an action and
nothing else (`Action.Execute` is defined outside the controller file): a status
patch puts the patched backup in place of the request, a creation makes the
created object the actual worker, in the phase `Pending` that a new pod has. -/
def applyEffect (state : backupState) : Action → backupState
  | .PatchStatus _ new => { state with backup := some new }
  | .CreateObject obj =>
    { state with actual := some { pod := obj.map (fun p => { p with Status := { Phase := PodPending } }) } }

/-! ## Concrete objects used to evaluate the definitions -/

/-- A backup request as a user creates it: no phase yet, not being deleted. -/
def sampleBackup : EtcdBackup :=
  { ObjectMeta :=
      { Name := "nightly", Namespace := "etcd", UID := "uid-1"
        DeletionTimestamp := none, OwnerReferences := [] }
    Spec := { BackupImage := "registry.local/etcd-backup:v1", Endpoints := "10.0.0.1:2379" }
    Status := { Phase := "" } }

/-- The same request with a deletion timestamp. -/
def sampleDeletingBackup : EtcdBackup :=
  { sampleBackup with
    ObjectMeta := { sampleBackup.ObjectMeta with DeletionTimestamp := some { sec := 63771580800, nsec := 0 } } }

/-- A pod of the given phase under the key of `sampleBackup`. -/
def samplePod (phase : PodPhase) : Pod :=
  { podForBackup sampleBackup with Status := { Phase := phase } }

/-- A scheme in which the EtcdBackup type is registered once. -/
def sampleScheme : Scheme :=
  { etcdBackupKinds := [{ Group := "etcd.oschina.cn", Version := "v1alpha1", Kind := "EtcdBackup" }] }

/-- A reconciler whose client answers every backup read with `backup`, every
pod read with `pod`, and accepts every mutation. -/
def sampleReconciler (backup : EtcdBackup) (pod : GetResult Pod) : EtcdBackupReconciler :=
  { Client := { getEtcdBackup := fun _ => .found backup, getPod := fun _ => pod, execute := fun _ => none }
    Scheme := sampleScheme }

/-- The request for the key of `sampleBackup`. -/
def sampleRequest : Request := { NamespacedName := { Namespace := "etcd", Name := "nightly" } }

/-- The request of `sampleBackup` once its phase is BackingUp. -/
def sampleBackingUp : EtcdBackup := sampleBackup.withPhase EtcdBackupPhaseBackingUp

/-- The desired pod of `sampleBackup`: its backup pod, controlled by the request. -/
def sampleDesiredPod : Pod :=
  { podForBackup sampleBackup with
    ObjectMeta :=
      { Name := "nightly", Namespace := "etcd", UID := "", DeletionTimestamp := none
        OwnerReferences :=
          [{ APIVersion := "etcd.oschina.cn/v1alpha1", Kind := "EtcdBackup", Name := "nightly"
             UID := "uid-1", Controller := some true, BlockOwnerDeletion := some true }] } }

/-- The state read for `sampleBackingUp` while no pod exists. -/
def sampleCreateState : backupState :=
  { backup := some sampleBackingUp, actual := some { pod := none }
    desired := some { pod := some sampleDesiredPod } }

/-- The state read for `sampleBackup` (phase still empty) while no pod exists. -/
def sampleUnsetState : backupState :=
  { backup := some sampleBackup, actual := some { pod := none }
    desired := some { pod := some sampleDesiredPod } }

/-- A second request with the spec of `sampleBackup` under another name. -/
def sampleOtherBackup : EtcdBackup :=
  { sampleBackup with
    ObjectMeta := { sampleBackup.ObjectMeta with Name := "weekly", UID := "uid-2" } }

/-- A reconciler whose client finds no backup, cannot read pods, rejects every
mutation, and whose scheme has no kind registered. -/
def sampleAbsentReconciler : EtcdBackupReconciler :=
  { Client := { getEtcdBackup := fun _ => .notFound, getPod := fun _ => .failed "connection refused"
                execute := fun _ => some "connection refused" }
    Scheme := { etcdBackupKinds := [] } }

/-- A reconciler whose client finds `sampleBackingUp` and fails to read pods. -/
def samplePodErrorReconciler : EtcdBackupReconciler :=
  { Client := { getEtcdBackup := fun _ => .found sampleBackingUp
                getPod := fun _ => .failed "connection refused", execute := fun _ => none }
    Scheme := sampleScheme }

/-- A reconciler whose client finds `sampleBackingUp` and no pod, and whose
scheme has no kind registered for the backup type. -/
def sampleNoKindReconciler : EtcdBackupReconciler :=
  { Client := { getEtcdBackup := fun _ => .found sampleBackingUp, getPod := fun _ => .notFound
                execute := fun _ => none }
    Scheme := { etcdBackupKinds := [] } }

/-- The request of `sampleBackup` with a phase outside the four declared values. -/
def sampleRunningPhaseBackup : EtcdBackup := sampleBackup.withPhase "Running"

/-! ## Facts about the phase constants -/

theorem backingUp_ne_unset : EtcdBackupPhaseBackingUp ≠ "" := by decide
theorem failed_ne_unset : EtcdBackupPhaseFailed ≠ "" := by decide
theorem completed_ne_unset : EtcdBackupPhaseCompleted ≠ "" := by decide
theorem backingUp_ne_failed : EtcdBackupPhaseBackingUp ≠ EtcdBackupPhaseFailed := by decide
theorem backingUp_ne_completed : EtcdBackupPhaseBackingUp ≠ EtcdBackupPhaseCompleted := by decide
theorem completed_ne_failed : EtcdBackupPhaseCompleted ≠ EtcdBackupPhaseFailed := by decide
theorem podSucceeded_ne_podFailed : PodSucceeded ≠ PodFailed := by decide
theorem podPending_ne_podFailed : PodPending ≠ PodFailed := by decide
theorem podPending_ne_podSucceeded : PodPending ≠ PodSucceeded := by decide

@[simp] theorem withPhase_phase (b : EtcdBackup) (p : EtcdBackupPhase) :
    (b.withPhase p).Status.Phase = p := rfl

@[simp] theorem withPhase_objectMeta (b : EtcdBackup) (p : EtcdBackupPhase) :
    (b.withPhase p).ObjectMeta = b.ObjectMeta := rfl

@[simp] theorem withPhase_spec (b : EtcdBackup) (p : EtcdBackupPhase) :
    (b.withPhase p).Spec = b.Spec := rfl

/-! ## The decision switch, case by case -/

/-- C1 (counterexample): a request whose phase is the empty string and whose
deletion timestamp is set gets no action, whether the worker is absent or
present, so an empty phase alone does not give the patch to BackingUp. -/
theorem deleting_unset_request_gets_no_patch :
    sampleDeletingBackup.Status.Phase = "" ∧
    switchAction { backup := some sampleDeletingBackup, actual := some { pod := none },
                   desired := some { pod := some (podForBackup sampleDeletingBackup) } } = .ok none ∧
    switchAction { backup := some sampleDeletingBackup, actual := some { pod := none },
                   desired := some { pod := some (podForBackup sampleDeletingBackup) } } ≠
      .ok (some (.PatchStatus sampleDeletingBackup
        (sampleDeletingBackup.withPhase EtcdBackupPhaseBackingUp))) := by
  decide

/-- C1 (amended): for every request that is not marked for deletion and whose
phase is the empty string, the switch yields PatchStatus from the request to
the request with phase BackingUp, whatever the actual and desired state are
(unset, worker absent, worker present in any phase); it never yields
CreateObject there. -/
theorem switchAction_unset (backup : EtcdBackup) (actual desired : Option backupStateContainer)
    (hdel : Time.IsZero backup.DeletionTimestamp = true) (hphase : backup.Status.Phase = "") :
    switchAction { backup := some backup, actual := actual, desired := desired } =
        .ok (some (.PatchStatus backup (backup.withPhase EtcdBackupPhaseBackingUp))) ∧
      (backup.withPhase EtcdBackupPhaseBackingUp).Status.Phase = EtcdBackupPhaseBackingUp ∧
      ∀ obj, switchAction { backup := some backup, actual := actual, desired := desired } ≠
        .ok (some (.CreateObject obj)) := by
  have h : switchAction { backup := some backup, actual := actual, desired := desired } =
      .ok (some (.PatchStatus backup (backup.withPhase EtcdBackupPhaseBackingUp))) := by
    simp [switchAction, hdel, hphase]
  refine ⟨h, rfl, ?_⟩
  intro obj hobj
  rw [h] at hobj
  cases hobj

theorem switchAction_unset_witness :
    Time.IsZero sampleBackup.DeletionTimestamp = true ∧ sampleBackup.Status.Phase = "" ∧
    (switchAction { backup := some sampleBackup, actual := some { pod := some (samplePod PodFailed) },
                    desired := none } =
        .ok (some (.PatchStatus sampleBackup (sampleBackup.withPhase EtcdBackupPhaseBackingUp))) ∧
      (sampleBackup.withPhase EtcdBackupPhaseBackingUp).Status.Phase = EtcdBackupPhaseBackingUp ∧
      ∀ obj, switchAction { backup := some sampleBackup,
                            actual := some { pod := some (samplePod PodFailed) }, desired := none } ≠
        .ok (some (.CreateObject obj))) :=
  ⟨by decide, by decide,
    switchAction_unset sampleBackup (some { pod := some (samplePod PodFailed) }) none
      (by decide) (by decide)⟩

/-- C2: for every request whose phase is Failed or Completed the switch yields
no action, for every actual and desired state (unset, worker absent, worker in
any phase, any desired content), marked for deletion or not. -/
theorem switchAction_terminal (backup : EtcdBackup) (actual desired : Option backupStateContainer)
    (hphase : backup.Status.Phase = EtcdBackupPhaseFailed ∨
      backup.Status.Phase = EtcdBackupPhaseCompleted) :
    switchAction { backup := some backup, actual := actual, desired := desired } = .ok none := by
  rcases hphase with h | h
  · simp [switchAction, h, failed_ne_unset]
  · simp [switchAction, h, completed_ne_unset]

theorem switchAction_terminal_witness :
    ((sampleBackup.withPhase EtcdBackupPhaseCompleted).Status.Phase = EtcdBackupPhaseFailed ∨
      (sampleBackup.withPhase EtcdBackupPhaseCompleted).Status.Phase = EtcdBackupPhaseCompleted) ∧
    switchAction { backup := some (sampleBackup.withPhase EtcdBackupPhaseCompleted),
                   actual := some { pod := some (samplePod PodFailed) },
                   desired := some { pod := none } } = .ok none :=
  ⟨Or.inr rfl,
    switchAction_terminal (sampleBackup.withPhase EtcdBackupPhaseCompleted)
      (some { pod := some (samplePod PodFailed) }) (some { pod := none }) (Or.inr rfl)⟩

/-- C3: for every request whose deletion timestamp is set (not zero) the switch
yields no action, whatever the phase of the request and the actual and desired
state are. -/
theorem switchAction_deleting (backup : EtcdBackup) (actual desired : Option backupStateContainer)
    (hdel : Time.IsZero backup.DeletionTimestamp = false) :
    switchAction { backup := some backup, actual := actual, desired := desired } = .ok none := by
  simp [switchAction, hdel]

theorem switchAction_deleting_witness :
    Time.IsZero (sampleDeletingBackup.withPhase EtcdBackupPhaseBackingUp).DeletionTimestamp = false ∧
    switchAction { backup := some (sampleDeletingBackup.withPhase EtcdBackupPhaseBackingUp),
                   actual := some { pod := none },
                   desired := some { pod := some (podForBackup sampleDeletingBackup) } } = .ok none :=
  ⟨by decide,
    switchAction_deleting (sampleDeletingBackup.withPhase EtcdBackupPhaseBackingUp)
      (some { pod := none }) (some { pod := some (podForBackup sampleDeletingBackup) }) (by decide)⟩

/-! ## What `getState` returns -/

/-- A state that `getState` returns with a backup in it: the backup is the one
the client found, the actual container holds what the pod read found, and the
desired container holds the pod of `podForBackup` with its controller
reference set. -/
theorem getState_ok_present (r : EtcdBackupReconciler) (req : Request) (state : backupState)
    (backup : EtcdBackup) (hstate : getState r req = .ok state) (hb : state.backup = some backup) :
    r.Client.getEtcdBackup req.NamespacedName = .found backup ∧
    (∃ pod, SetControllerReference backup (podForBackup backup) r.Scheme = .ok pod ∧
      state.desired = some { pod := some pod }) ∧
    ((r.Client.getPod { Name := backup.Name, Namespace := backup.Namespace } = .notFound ∧
        state.actual = some { pod := none }) ∨
      ∃ p, r.Client.getPod { Name := backup.Name, Namespace := backup.Namespace } = .found p ∧
        state.actual = some { pod := some p }) := by
  unfold getState at hstate
  cases hget : r.Client.getEtcdBackup req.NamespacedName with
  | failed msg => simp [hget] at hstate
  | notFound =>
    simp [hget] at hstate
    subst hstate
    simp at hb
  | found b =>
    simp only [hget, setStateActual, setStateDesired] at hstate
    cases hpod : r.Client.getPod { Name := b.Name, Namespace := b.Namespace } with
    | failed msg => simp [hpod] at hstate
    | notFound =>
      simp only [hpod] at hstate
      cases hset : SetControllerReference b (podForBackup b) r.Scheme with
      | error e => simp [hset] at hstate
      | ok pod =>
        simp only [hset] at hstate
        injection hstate with hstate
        subst hstate
        simp only [Option.some.injEq] at hb
        subst hb
        exact ⟨rfl, ⟨pod, hset, rfl⟩, Or.inl ⟨hpod, rfl⟩⟩
    | found p =>
      simp only [hpod] at hstate
      cases hset : SetControllerReference b (podForBackup b) r.Scheme with
      | error e => simp [hset] at hstate
      | ok pod =>
        simp only [hset] at hstate
        injection hstate with hstate
        subst hstate
        simp only [Option.some.injEq] at hb
        subst hb
        exact ⟨rfl, ⟨pod, hset, rfl⟩, Or.inr ⟨p, hpod, rfl⟩⟩

/-- C4: for every state that `getState` returns with a request that is not
marked for deletion and whose phase is BackingUp, if the actual worker is
absent then the switch yields CreateObject, and the object it carries is the
pod held by the desired state, which is the pod `getState` computed from that
request: `podForBackup` of the request with its controller reference set. -/
theorem switchAction_create (r : EtcdBackupReconciler) (req : Request) (state : backupState)
    (backup : EtcdBackup) (hstate : getState r req = .ok state) (hb : state.backup = some backup)
    (hdel : Time.IsZero backup.DeletionTimestamp = true)
    (hphase : backup.Status.Phase = EtcdBackupPhaseBackingUp)
    (hactual : state.actual = some { pod := none }) :
    ∃ pod, SetControllerReference backup (podForBackup backup) r.Scheme = .ok pod ∧
      state.desired = some { pod := some pod } ∧
      switchAction state = .ok (some (.CreateObject (some pod))) := by
  obtain ⟨-, ⟨pod, hset, hdesired⟩, -⟩ := getState_ok_present r req state backup hstate hb
  refine ⟨pod, hset, hdesired, ?_⟩
  simp [switchAction, hb, hdel, hphase, hactual, hdesired, backingUp_ne_unset,
    backingUp_ne_failed, backingUp_ne_completed]

theorem switchAction_create_witness :
    getState (sampleReconciler sampleBackingUp .notFound) sampleRequest = .ok sampleCreateState ∧
    sampleCreateState.backup = some sampleBackingUp ∧
    Time.IsZero sampleBackingUp.DeletionTimestamp = true ∧
    sampleBackingUp.Status.Phase = EtcdBackupPhaseBackingUp ∧
    sampleCreateState.actual = some { pod := none } ∧
    ∃ pod, SetControllerReference sampleBackingUp (podForBackup sampleBackingUp) sampleScheme =
        .ok pod ∧
      sampleCreateState.desired = some { pod := some pod } ∧
      switchAction sampleCreateState = .ok (some (.CreateObject (some pod))) :=
  ⟨by decide, rfl, by decide, rfl, rfl,
    switchAction_create (sampleReconciler sampleBackingUp .notFound) sampleRequest
      sampleCreateState sampleBackingUp (by decide) rfl (by decide) rfl rfl⟩

/-- C5: for every request that is not marked for deletion and whose phase is
BackingUp, if the actual worker exists with phase Failed then the switch yields
PatchStatus from the request to the request with phase Failed, whatever the
desired state is. -/
theorem switchAction_worker_failed (backup : EtcdBackup) (pod : Pod)
    (desired : Option backupStateContainer)
    (hdel : Time.IsZero backup.DeletionTimestamp = true)
    (hphase : backup.Status.Phase = EtcdBackupPhaseBackingUp)
    (hpod : pod.Status.Phase = PodFailed) :
    switchAction { backup := some backup, actual := some { pod := some pod }, desired := desired } =
        .ok (some (.PatchStatus backup (backup.withPhase EtcdBackupPhaseFailed))) ∧
      (backup.withPhase EtcdBackupPhaseFailed).Status.Phase = EtcdBackupPhaseFailed := by
  refine ⟨?_, rfl⟩
  simp [switchAction, hdel, hphase, hpod, backingUp_ne_unset, backingUp_ne_failed,
    backingUp_ne_completed]

theorem switchAction_worker_failed_witness :
    Time.IsZero sampleBackingUp.DeletionTimestamp = true ∧
    sampleBackingUp.Status.Phase = EtcdBackupPhaseBackingUp ∧
    (samplePod PodFailed).Status.Phase = PodFailed ∧
    (switchAction { backup := some sampleBackingUp, actual := some { pod := some (samplePod PodFailed) },
                    desired := some { pod := some sampleDesiredPod } } =
        .ok (some (.PatchStatus sampleBackingUp (sampleBackingUp.withPhase EtcdBackupPhaseFailed))) ∧
      (sampleBackingUp.withPhase EtcdBackupPhaseFailed).Status.Phase = EtcdBackupPhaseFailed) :=
  ⟨by decide, rfl, rfl,
    switchAction_worker_failed sampleBackingUp (samplePod PodFailed)
      (some { pod := some sampleDesiredPod }) (by decide) rfl rfl⟩

/-- C6: for every request that is not marked for deletion and whose phase is
BackingUp, if the actual worker exists with phase Succeeded then the switch
yields PatchStatus from the request to the request with phase Completed,
whatever the desired state is. -/
theorem switchAction_worker_succeeded (backup : EtcdBackup) (pod : Pod)
    (desired : Option backupStateContainer)
    (hdel : Time.IsZero backup.DeletionTimestamp = true)
    (hphase : backup.Status.Phase = EtcdBackupPhaseBackingUp)
    (hpod : pod.Status.Phase = PodSucceeded) :
    switchAction { backup := some backup, actual := some { pod := some pod }, desired := desired } =
        .ok (some (.PatchStatus backup (backup.withPhase EtcdBackupPhaseCompleted))) ∧
      (backup.withPhase EtcdBackupPhaseCompleted).Status.Phase = EtcdBackupPhaseCompleted := by
  refine ⟨?_, rfl⟩
  simp [switchAction, hdel, hphase, hpod, backingUp_ne_unset, backingUp_ne_failed,
    backingUp_ne_completed, podSucceeded_ne_podFailed]

theorem switchAction_worker_succeeded_witness :
    Time.IsZero sampleBackingUp.DeletionTimestamp = true ∧
    sampleBackingUp.Status.Phase = EtcdBackupPhaseBackingUp ∧
    (samplePod PodSucceeded).Status.Phase = PodSucceeded ∧
    (switchAction { backup := some sampleBackingUp,
                    actual := some { pod := some (samplePod PodSucceeded) },
                    desired := some { pod := some sampleDesiredPod } } =
        .ok (some (.PatchStatus sampleBackingUp
          (sampleBackingUp.withPhase EtcdBackupPhaseCompleted))) ∧
      (sampleBackingUp.withPhase EtcdBackupPhaseCompleted).Status.Phase =
        EtcdBackupPhaseCompleted) :=
  ⟨by decide, rfl, rfl,
    switchAction_worker_succeeded sampleBackingUp (samplePod PodSucceeded)
      (some { pod := some sampleDesiredPod }) (by decide) rfl rfl⟩

/-- C7: for every request that is not marked for deletion and whose phase is
BackingUp, if the actual worker exists and its phase is neither Failed nor
Succeeded (Pending, Running or any other value), the switch yields no action
whatever the desired state is; and a call of `Reconcile` whose `getState`
returned such a state executes nothing and returns a nil error. -/
theorem switchAction_worker_running (backup : EtcdBackup) (pod : Pod)
    (hdel : Time.IsZero backup.DeletionTimestamp = true)
    (hphase : backup.Status.Phase = EtcdBackupPhaseBackingUp)
    (hfailed : pod.Status.Phase ≠ PodFailed) (hsucceeded : pod.Status.Phase ≠ PodSucceeded) :
    (∀ desired : Option backupStateContainer,
      switchAction { backup := some backup, actual := some { pod := some pod }, desired := desired } =
        .ok none) ∧
    ∀ (r : EtcdBackupReconciler) (req : Request) (desired : Option backupStateContainer),
      getState r req =
          .ok { backup := some backup, actual := some { pod := some pod }, desired := desired } →
        Reconcile r req = .ok { executed := [], err := none } := by
  have hswitch : ∀ desired : Option backupStateContainer,
      switchAction { backup := some backup, actual := some { pod := some pod }, desired := desired } =
        .ok none := by
    intro desired
    simp [switchAction, hdel, hphase, hfailed, hsucceeded, backingUp_ne_unset,
      backingUp_ne_failed, backingUp_ne_completed]
  refine ⟨hswitch, ?_⟩
  intro r req desired hstate
  simp [Reconcile, hstate, hswitch desired]

theorem switchAction_worker_running_witness :
    Time.IsZero sampleBackingUp.DeletionTimestamp = true ∧
    sampleBackingUp.Status.Phase = EtcdBackupPhaseBackingUp ∧
    (samplePod PodRunning).Status.Phase ≠ PodFailed ∧
    (samplePod PodRunning).Status.Phase ≠ PodSucceeded ∧
    getState (sampleReconciler sampleBackingUp (.found (samplePod PodRunning))) sampleRequest =
      .ok { backup := some sampleBackingUp, actual := some { pod := some (samplePod PodRunning) },
            desired := some { pod := some sampleDesiredPod } } ∧
    Reconcile (sampleReconciler sampleBackingUp (.found (samplePod PodRunning))) sampleRequest =
      .ok { executed := [], err := none } :=
  ⟨by decide, rfl, by decide, by decide, by decide,
    (switchAction_worker_running sampleBackingUp (samplePod PodRunning) (by decide) rfl
      (by decide) (by decide)).2
      (sampleReconciler sampleBackingUp (.found (samplePod PodRunning))) sampleRequest
      (some { pod := some sampleDesiredPod }) (by decide)⟩

/-- Every PatchStatus of the switch comes from one of three cases: the request
it patches is the one in the state, it is not marked for deletion, and either
its phase is empty and the new phase is BackingUp, or its phase is neither
empty nor Failed nor Completed, the worker exists, and the new phase follows
the phase of the worker. -/
theorem patchStatus_origin (state : backupState) (original new : EtcdBackup)
    (h : switchAction state = .ok (some (.PatchStatus original new))) :
    state.backup = some original ∧ Time.IsZero original.DeletionTimestamp = true ∧
    ((original.Status.Phase = "" ∧ new = original.withPhase EtcdBackupPhaseBackingUp) ∨
      (original.Status.Phase ≠ "" ∧ original.Status.Phase ≠ EtcdBackupPhaseFailed ∧
        original.Status.Phase ≠ EtcdBackupPhaseCompleted ∧
        ∃ pod, state.actual = some { pod := some pod } ∧
          ((pod.Status.Phase = PodFailed ∧ new = original.withPhase EtcdBackupPhaseFailed) ∨
            (pod.Status.Phase ≠ PodFailed ∧ pod.Status.Phase = PodSucceeded ∧
              new = original.withPhase EtcdBackupPhaseCompleted)))) := by
  unfold switchAction at h
  split at h
  · cases h
  · rename_i backup hb
    split at h
    · cases h
    · rename_i hdel
      split at h
      · rename_i hphase
        injection h with h
        injection h with h
        injection h with h1 h2
        subst h1
        exact ⟨hb, by simpa using hdel, Or.inl ⟨hphase, h2.symm⟩⟩
      · rename_i hunset
        split at h
        · cases h
        · rename_i hfailed
          split at h
          · cases h
          · rename_i hcompleted
            split at h
            · cases h
            · rename_i actual hactual
              split at h
              · split at h
                · cases h
                · injection h with h
                  injection h with h
                  cases h
              · rename_i pod hpod
                have hact : state.actual = some { pod := some pod } := by
                  rw [hactual]; cases actual; simp_all
                split at h
                · rename_i hpf
                  injection h with h
                  injection h with h
                  injection h with h1 h2
                  subst h1
                  exact ⟨hb, by simpa using hdel,
                    Or.inr ⟨hunset, hfailed, hcompleted, pod, hact, Or.inl ⟨hpf, h2.symm⟩⟩⟩
                · rename_i hpf
                  split at h
                  · rename_i hps
                    injection h with h
                    injection h with h
                    injection h with h1 h2
                    subst h1
                    exact ⟨hb, by simpa using hdel,
                      Or.inr ⟨hunset, hfailed, hcompleted, pod, hact, Or.inr ⟨hpf, hps, h2.symm⟩⟩⟩
                  · cases h
/-- Every CreateObject of the switch comes from one case: the request is
present, not marked for deletion, its phase is neither empty nor Failed nor
Completed, the worker is absent, and the object is the pod of the desired
state. -/
theorem createObject_origin (state : backupState) (obj : Option Pod)
    (h : switchAction state = .ok (some (.CreateObject obj))) :
    ∃ backup, state.backup = some backup ∧ Time.IsZero backup.DeletionTimestamp = true ∧
      backup.Status.Phase ≠ "" ∧ backup.Status.Phase ≠ EtcdBackupPhaseFailed ∧
      backup.Status.Phase ≠ EtcdBackupPhaseCompleted ∧
      state.actual = some { pod := none } ∧
      ∃ desired, state.desired = some desired ∧ obj = desired.pod := by
  unfold switchAction at h
  split at h
  · cases h
  · rename_i backup hb
    split at h
    · cases h
    · rename_i hdel
      split at h
      · injection h with h
        injection h with h
        cases h
      · rename_i hunset
        split at h
        · cases h
        · rename_i hfailed
          split at h
          · cases h
          · rename_i hcompleted
            split at h
            · cases h
            · rename_i actual hactual
              split at h
              · rename_i hpod
                have hact : state.actual = some { pod := none } := by
                  rw [hactual]; cases actual; simp_all
                split at h
                · cases h
                · rename_i desired hdesired
                  injection h with h
                  injection h with h
                  injection h with h
                  exact ⟨backup, hb, by simpa using hdel, hunset, hfailed, hcompleted, hact,
                    desired, hdesired, h.symm⟩
              · split at h
                · injection h with h
                  injection h with h
                  cases h
                · split at h
                  · injection h with h
                    injection h with h
                    cases h
                  · cases h

/-- The switch on a state whose request is in a terminal phase. -/
theorem switchAction_of_terminal (backup : EtcdBackup)
    (actual desired : Option backupStateContainer)
    (hphase : backup.Status.Phase = EtcdBackupPhaseFailed ∨
      backup.Status.Phase = EtcdBackupPhaseCompleted) :
    switchAction { backup := some backup, actual := actual, desired := desired } = .ok none := by
  rcases hphase with h | h
  · simp [switchAction, h, failed_ne_unset]
  · simp [switchAction, h, completed_ne_unset]

/-- The switch on a state whose request is in progress and whose worker exists
and has not finished. -/
theorem switchAction_of_unfinished (backup : EtcdBackup) (pod : Pod)
    (desired : Option backupStateContainer)
    (hunset : backup.Status.Phase ≠ "") (hfailed : pod.Status.Phase ≠ PodFailed)
    (hsucceeded : pod.Status.Phase ≠ PodSucceeded) :
    switchAction { backup := some backup, actual := some { pod := some pod }, desired := desired } =
      .ok none := by
  unfold switchAction
  simp only [hunset, hfailed, hsucceeded, if_false]
  split
  · rfl
  · split
    · rfl
    · split <;> rfl

/-- C8 (counterexample): for a request whose phase is the string "Running" and
whose worker has failed, `getState` returns a state on which the switch yields
a PatchStatus from "Running" to Failed, a pair of old and new phase that is
none of (empty, BackingUp), (BackingUp, Failed), (BackingUp, Completed). -/
theorem patch_from_undeclared_phase :
    getState (sampleReconciler sampleRunningPhaseBackup (.found (samplePod PodFailed)))
        sampleRequest =
      .ok { backup := some sampleRunningPhaseBackup
            actual := some { pod := some (samplePod PodFailed) }
            desired := some { pod := some sampleDesiredPod } } ∧
    switchAction { backup := some sampleRunningPhaseBackup
                   actual := some { pod := some (samplePod PodFailed) }
                   desired := some { pod := some sampleDesiredPod } } =
      .ok (some (.PatchStatus sampleRunningPhaseBackup
        (sampleRunningPhaseBackup.withPhase EtcdBackupPhaseFailed))) ∧
    (sampleRunningPhaseBackup.Status.Phase,
        (sampleRunningPhaseBackup.withPhase EtcdBackupPhaseFailed).Status.Phase) ∉
      [("", EtcdBackupPhaseBackingUp), (EtcdBackupPhaseBackingUp, EtcdBackupPhaseFailed),
        (EtcdBackupPhaseBackingUp, EtcdBackupPhaseCompleted)] := by
  decide

/-- C8 (amended): every PatchStatus the switch yields moves the phase forward:
whatever the phase of the request, it is never produced from Failed or
Completed, it never sets the empty phase nor keeps the phase it found, and the
new phase is BackingUp from the empty phase and Failed or Completed otherwise;
for a request whose phase is one of the four declared values the pair of old
and new phase is one of (empty, BackingUp), (BackingUp, Failed),
(BackingUp, Completed). -/
theorem switchAction_patch_monotonic (state : backupState) (original new : EtcdBackup)
    (h : switchAction state = .ok (some (.PatchStatus original new))) :
    state.backup = some original ∧
    original.Status.Phase ≠ EtcdBackupPhaseFailed ∧
    original.Status.Phase ≠ EtcdBackupPhaseCompleted ∧
    new.Status.Phase ≠ "" ∧
    new.Status.Phase ≠ original.Status.Phase ∧
    ((original.Status.Phase = "" ∧ new.Status.Phase = EtcdBackupPhaseBackingUp) ∨
      (original.Status.Phase ≠ "" ∧
        (new.Status.Phase = EtcdBackupPhaseFailed ∨ new.Status.Phase = EtcdBackupPhaseCompleted))) ∧
    (EtcdBackupPhase.declared original.Status.Phase →
      (original.Status.Phase, new.Status.Phase) ∈
        [("", EtcdBackupPhaseBackingUp), (EtcdBackupPhaseBackingUp, EtcdBackupPhaseFailed),
          (EtcdBackupPhaseBackingUp, EtcdBackupPhaseCompleted)]) := by
  obtain ⟨hb, -, hcases⟩ := patchStatus_origin state original new h
  rcases hcases with ⟨hunset, hnew⟩ | ⟨hunset, hfailed, hcompleted, pod, -, hpod⟩
  · subst hnew
    refine ⟨hb, ?_, ?_, backingUp_ne_unset, ?_, Or.inl ⟨hunset, rfl⟩, ?_⟩
    · rw [hunset]; exact fun e => failed_ne_unset e.symm
    · rw [hunset]; exact fun e => completed_ne_unset e.symm
    · rw [hunset]; exact backingUp_ne_unset
    · intro _
      simp [hunset]
  · have hnew : new.Status.Phase = EtcdBackupPhaseFailed ∨
        new.Status.Phase = EtcdBackupPhaseCompleted := by
      rcases hpod with ⟨-, hn⟩ | ⟨-, -, hn⟩
      · subst hn; exact Or.inl rfl
      · subst hn; exact Or.inr rfl
    refine ⟨hb, hfailed, hcompleted, ?_, ?_, Or.inr ⟨hunset, hnew⟩, ?_⟩
    · rcases hnew with hn | hn
      · rw [hn]; exact failed_ne_unset
      · rw [hn]; exact completed_ne_unset
    · rcases hnew with hn | hn
      · rw [hn]; exact fun e => hfailed e.symm
      · rw [hn]; exact fun e => hcompleted e.symm
    · intro hdecl
      have hbu : original.Status.Phase = EtcdBackupPhaseBackingUp := by
        rcases hdecl with hd | hd | hd | hd
        · exact absurd hd hunset
        · exact hd
        · exact absurd hd hfailed
        · exact absurd hd hcompleted
      rcases hnew with hn | hn
      · simp [hbu, hn]
      · simp [hbu, hn]

theorem switchAction_patch_monotonic_witness :
    switchAction { backup := some sampleBackingUp,
                   actual := some { pod := some (samplePod PodSucceeded) },
                   desired := some { pod := some sampleDesiredPod } } =
      .ok (some (.PatchStatus sampleBackingUp
        (sampleBackingUp.withPhase EtcdBackupPhaseCompleted))) ∧
    EtcdBackupPhase.declared sampleBackingUp.Status.Phase ∧
    (sampleBackingUp.Status.Phase,
        (sampleBackingUp.withPhase EtcdBackupPhaseCompleted).Status.Phase) ∈
      [("", EtcdBackupPhaseBackingUp), (EtcdBackupPhaseBackingUp, EtcdBackupPhaseFailed),
        (EtcdBackupPhaseBackingUp, EtcdBackupPhaseCompleted)] :=
  ⟨by decide, by decide,
    (switchAction_patch_monotonic
      { backup := some sampleBackingUp, actual := some { pod := some (samplePod PodSucceeded) },
        desired := some { pod := some sampleDesiredPod } }
      sampleBackingUp (sampleBackingUp.withPhase EtcdBackupPhaseCompleted)
      (by decide)).2.2.2.2.2.2 (by decide)⟩

/-- C9 (counterexample): for the request with an empty phase and no worker,
`getState` returns `sampleUnsetState`, the switch yields the patch to
BackingUp, and the switch on the state with that patch applied yields
CreateObject of the desired pod, not the nil action. -/
theorem switchAction_after_unset_patch_creates :
    getState (sampleReconciler sampleBackup .notFound) sampleRequest = .ok sampleUnsetState ∧
    switchAction sampleUnsetState =
      .ok (some (.PatchStatus sampleBackup (sampleBackup.withPhase EtcdBackupPhaseBackingUp))) ∧
    switchAction (applyEffect sampleUnsetState
        (.PatchStatus sampleBackup (sampleBackup.withPhase EtcdBackupPhaseBackingUp))) =
      .ok (some (.CreateObject (some sampleDesiredPod))) ∧
    switchAction (applyEffect sampleUnsetState
        (.PatchStatus sampleBackup (sampleBackup.withPhase EtcdBackupPhaseBackingUp))) ≠
      .ok none := by
  decide

/-- C9 (amended): for every state that `getState` returns and for which the
switch yields an action, the switch on the state with only the effect of that
action applied yields no action, provided the phase of the request was not
empty (the action is CreateObject or a patch to Failed or Completed) or the
worker already exists with a phase that is neither Failed nor Succeeded. -/
theorem switchAction_idempotent_after_effect (r : EtcdBackupReconciler) (req : Request)
    (state : backupState) (action : Action)
    (hstate : getState r req = .ok state)
    (haction : switchAction state = .ok (some action))
    (hcond : (∀ backup, state.backup = some backup → backup.Status.Phase ≠ "") ∨
      ∃ pod, state.actual = some { pod := some pod } ∧ pod.Status.Phase ≠ PodFailed ∧
        pod.Status.Phase ≠ PodSucceeded) :
    switchAction (applyEffect state action) = .ok none := by
  cases action with
  | PatchStatus original new =>
    obtain ⟨hb, -, hcases⟩ := patchStatus_origin state original new haction
    have happly : applyEffect state (.PatchStatus original new) =
        { backup := some new, actual := state.actual, desired := state.desired } := rfl
    rw [happly]
    rcases hcases with ⟨hunset, hnew⟩ | ⟨-, -, -, pod, -, hpod⟩
    · rcases hcond with hne | ⟨pod, hactual, hfailed, hsucceeded⟩
      · exact absurd hunset (hne original hb)
      · rw [hactual]
        apply switchAction_of_unfinished _ _ _ _ hfailed hsucceeded
        rw [hnew]
        exact backingUp_ne_unset
    · apply switchAction_of_terminal
      rcases hpod with ⟨-, hn⟩ | ⟨-, -, hn⟩
      · rw [hn]; exact Or.inl rfl
      · rw [hn]; exact Or.inr rfl
  | CreateObject obj =>
    obtain ⟨backup, hb, -, hunset, -, -, -, desired, hdesired, hobj⟩ :=
      createObject_origin state obj haction
    obtain ⟨-, ⟨pod, -, hpod⟩, -⟩ := getState_ok_present r req state backup hstate hb
    rw [hdesired] at hpod
    injection hpod with hpod
    subst hpod
    subst hobj
    have happly : applyEffect state (.CreateObject (some pod)) =
        { backup := some backup
          actual := some { pod := some { pod with Status := { Phase := PodPending } } }
          desired := state.desired } := by
      simp [applyEffect, hb]
    rw [happly]
    exact switchAction_of_unfinished _ _ _ hunset podPending_ne_podFailed
      podPending_ne_podSucceeded

theorem switchAction_idempotent_after_effect_witness :
    getState (sampleReconciler sampleBackingUp .notFound) sampleRequest = .ok sampleCreateState ∧
    switchAction sampleCreateState = .ok (some (.CreateObject (some sampleDesiredPod))) ∧
    ((∀ backup, sampleCreateState.backup = some backup → backup.Status.Phase ≠ "") ∨
      ∃ pod, sampleCreateState.actual = some { pod := some pod } ∧ pod.Status.Phase ≠ PodFailed ∧
        pod.Status.Phase ≠ PodSucceeded) ∧
    switchAction (applyEffect sampleCreateState (.CreateObject (some sampleDesiredPod))) =
      .ok none :=
  have hcond : (∀ backup, sampleCreateState.backup = some backup → backup.Status.Phase ≠ "") ∨
      ∃ pod, sampleCreateState.actual = some { pod := some pod } ∧ pod.Status.Phase ≠ PodFailed ∧
        pod.Status.Phase ≠ PodSucceeded :=
    Or.inl (fun backup hb => by
      have hb2 : sampleBackingUp = backup := Option.some.inj hb
      rw [← hb2]
      decide)
  ⟨by decide, by decide, hcond,
    switchAction_idempotent_after_effect (sampleReconciler sampleBackingUp .notFound)
      sampleRequest sampleCreateState (.CreateObject (some sampleDesiredPod))
      (by decide) (by decide) hcond⟩

/-- C10: for every request, `podForBackup` returns a pod with the name and
the namespace of the request and exactly one container, named "etcd-backup", whose
image is the image of the request spec and whose arguments are
"--etcd-endpoints" followed by the endpoints of the request spec, with requests
of 100m cpu and 100Mi memory, limits of 500m cpu and 500Mi memory (and no other
resource), and the restart policy Never. -/
theorem podForBackup_shape (backup : EtcdBackup) :
    (podForBackup backup).ObjectMeta.Name = backup.Name ∧
    (podForBackup backup).ObjectMeta.Namespace = backup.Namespace ∧
    (∃ c : Container, (podForBackup backup).Spec.Containers = [c] ∧
      c.Name = "etcd-backup" ∧
      c.Image = backup.Spec.BackupImage ∧
      c.Args = ["--etcd-endpoints", backup.Spec.Endpoints] ∧
      c.Resources.Requests.lookup "cpu" = some (MustParse "100m") ∧
      c.Resources.Requests.lookup "memory" = some (MustParse "100Mi") ∧
      c.Resources.Requests.map Prod.fst = ["cpu", "memory"] ∧
      c.Resources.Limits.lookup "cpu" = some (MustParse "500m") ∧
      c.Resources.Limits.lookup "memory" = some (MustParse "500Mi") ∧
      c.Resources.Limits.map Prod.fst = ["cpu", "memory"]) ∧
    (podForBackup backup).Spec.RestartPolicy = "Never" := by
  exact ⟨rfl, rfl, ⟨_, rfl, rfl, rfl, rfl, rfl, rfl, rfl, rfl, rfl, rfl⟩, rfl⟩

/-! ## The state reader never panics -/

/-- On the pod of `podForBackup`, `SetControllerReference` fails exactly when the
scheme lookup fails, and otherwise returns that pod with the one controller
reference to the owner. -/
theorem SetControllerReference_podForBackup (backup : EtcdBackup) (scheme : Scheme) :
    SetControllerReference backup (podForBackup backup) scheme =
      match GVKForObject scheme with
      | .error e => .error e
      | .ok gvk =>
        .ok { podForBackup backup with
              ObjectMeta :=
                { Name := backup.Name, Namespace := backup.Namespace, UID := ""
                  DeletionTimestamp := none
                  OwnerReferences :=
                    [{ APIVersion := gvk.groupVersionString, Kind := gvk.Kind, Name := backup.Name
                       UID := backup.ObjectMeta.UID, Controller := some true
                       BlockOwnerDeletion := some true }] } } := by
  have hvalid : validateOwner backup (podForBackup backup) = .ok () := by
    unfold validateOwner
    by_cases hns : backup.Namespace = ""
    · simp [hns]
    · simp [hns, podForBackup]
  unfold SetControllerReference
  rw [hvalid]
  cases hgvk : GVKForObject scheme with
  | error e => rfl
  | ok gvk => rfl

/-- Method `getState` never panics: it dereferences the backup only after a
successful fetch. -/
theorem getState_ne_panic (r : EtcdBackupReconciler) (req : Request) (p : RuntimePanic) :
    getState r req ≠ .panic p := by
  unfold getState
  cases hget : r.Client.getEtcdBackup req.NamespacedName with
  | failed msg => simp
  | notFound => simp
  | found b =>
    simp only [setStateActual, setStateDesired]
    cases hpod : r.Client.getPod { Name := b.Name, Namespace := b.Namespace } with
    | failed msg => simp
    | notFound =>
      cases hset : SetControllerReference b (podForBackup b) r.Scheme <;> simp [hset]
    | found pod =>
      cases hset : SetControllerReference b (podForBackup b) r.Scheme <;> simp [hset]

/-- A state that `getState` returns without a backup has nothing else set. -/
theorem getState_ok_absent (r : EtcdBackupReconciler) (req : Request) (state : backupState)
    (hstate : getState r req = .ok state) (hb : state.backup = none) :
    r.Client.getEtcdBackup req.NamespacedName = .notFound ∧
      state = { backup := none, actual := none, desired := none } := by
  unfold getState at hstate
  cases hget : r.Client.getEtcdBackup req.NamespacedName with
  | failed msg => simp [hget] at hstate
  | notFound =>
    simp only [hget] at hstate
    injection hstate with hstate
    exact ⟨rfl, hstate.symm⟩
  | found b =>
    simp only [hget, setStateActual, setStateDesired] at hstate
    cases hpod : r.Client.getPod { Name := b.Name, Namespace := b.Namespace } with
    | failed msg => simp [hpod] at hstate
    | notFound =>
      simp only [hpod] at hstate
      cases hset : SetControllerReference b (podForBackup b) r.Scheme with
      | error e => simp [hset] at hstate
      | ok pod =>
        simp only [hset] at hstate
        injection hstate with hstate
        subst hstate
        simp at hb
    | found p =>
      simp only [hpod] at hstate
      cases hset : SetControllerReference b (podForBackup b) r.Scheme with
      | error e => simp [hset] at hstate
      | ok pod =>
        simp only [hset] at hstate
        injection hstate with hstate
        subst hstate
        simp at hb

/-- The switch never panics on a state that `getState` returned. -/
theorem switchAction_ok_of_getState (r : EtcdBackupReconciler) (req : Request)
    (state : backupState) (hstate : getState r req = .ok state) :
    ∃ action, switchAction state = .ok action := by
  cases hb : state.backup with
  | none =>
    exact ⟨none, by simp [switchAction, hb]⟩
  | some backup =>
    obtain ⟨-, ⟨pod, -, hdesired⟩, hactual⟩ := getState_ok_present r req state backup hstate hb
    unfold switchAction
    simp only [hb, hdesired]
    rcases hactual with ⟨-, ha⟩ | ⟨p, -, ha⟩
    · simp only [ha]
      split
      · exact ⟨_, rfl⟩
      · split
        · exact ⟨_, rfl⟩
        · split
          · exact ⟨_, rfl⟩
          · split
            · exact ⟨_, rfl⟩
            · exact ⟨_, rfl⟩
    · simp only [ha]
      split
      · exact ⟨_, rfl⟩
      · split
        · exact ⟨_, rfl⟩
        · split
          · exact ⟨_, rfl⟩
          · split
            · exact ⟨_, rfl⟩
            · split
              · exact ⟨_, rfl⟩
              · split
                · exact ⟨_, rfl⟩
                · exact ⟨_, rfl⟩
/-! ## Determinism of the desired pod, and the error paths of the state reader -/

/-- C11 (counterexample): two requests with equal specs (same image, same
endpoints) and different names get different pods from `podForBackup`. -/
theorem podForBackup_differs_for_equal_specs :
    sampleBackup.Spec = sampleOtherBackup.Spec ∧
    podForBackup sampleBackup ≠ podForBackup sampleOtherBackup ∧
    (podForBackup sampleBackup).ObjectMeta.Name ≠ (podForBackup sampleOtherBackup).ObjectMeta.Name := by
  decide

/-- C11 (amended): the pod of `podForBackup` is a function of the name,
the namespace and the spec of the request alone: for two requests with equal specs
the pod specs (containers, restart policy) and pod statuses are identical, and
when the names and namespaces are equal too the whole pods are identical,
whatever the status, UID, deletion timestamp and owner references of the
requests are. -/
theorem podForBackup_deterministic (a b : EtcdBackup) (hspec : a.Spec = b.Spec) :
    (podForBackup a).Spec = (podForBackup b).Spec ∧
    (podForBackup a).Status = (podForBackup b).Status ∧
    (a.Name = b.Name → a.Namespace = b.Namespace → podForBackup a = podForBackup b) := by
  refine ⟨?_, rfl, ?_⟩
  · simp [podForBackup, hspec]
  · intro hname hns
    simp [podForBackup, hspec, hname, hns]

theorem podForBackup_deterministic_witness :
    sampleBackup.Spec = sampleBackingUp.Spec ∧ sampleBackup ≠ sampleBackingUp ∧
    sampleBackup.Name = sampleBackingUp.Name ∧ sampleBackup.Namespace = sampleBackingUp.Namespace ∧
    (podForBackup sampleBackup).Spec = (podForBackup sampleBackingUp).Spec ∧
    podForBackup sampleBackup = podForBackup sampleBackingUp :=
  ⟨rfl, by decide, rfl, rfl, (podForBackup_deterministic sampleBackup sampleBackingUp rfl).1,
    (podForBackup_deterministic sampleBackup sampleBackingUp rfl).2.2 rfl rfl⟩

/-- C12: when the fetch of the request reports not-found, `getState` returns
without error the state whose backup is nil and whose actual and desired
containers are unset, whatever the pod read and the scheme would answer; the
switch yields no action on it, and `Reconcile` executes nothing and returns a
nil error. -/
theorem getState_not_found (r : EtcdBackupReconciler) (req : Request)
    (hget : r.Client.getEtcdBackup req.NamespacedName = .notFound) :
    getState r req = .ok { backup := none, actual := none, desired := none } ∧
    switchAction { backup := none, actual := none, desired := none } = .ok none ∧
    Reconcile r req = .ok { executed := [], err := none } := by
  have hstate : getState r req = .ok { backup := none, actual := none, desired := none } := by
    simp [getState, hget]
  refine ⟨hstate, rfl, ?_⟩
  simp [Reconcile, hstate, switchAction]

theorem getState_not_found_witness :
    sampleAbsentReconciler.Client.getEtcdBackup sampleRequest.NamespacedName = .notFound ∧
    sampleAbsentReconciler.Client.getPod sampleRequest.NamespacedName =
      .failed "connection refused" ∧
    GVKForObject sampleAbsentReconciler.Scheme ≠ .ok
      { Group := "etcd.oschina.cn", Version := "v1alpha1", Kind := "EtcdBackup" } ∧
    (getState sampleAbsentReconciler sampleRequest =
        .ok { backup := none, actual := none, desired := none } ∧
      switchAction { backup := none, actual := none, desired := none } = .ok none ∧
      Reconcile sampleAbsentReconciler sampleRequest = .ok { executed := [], err := none }) :=
  ⟨rfl, rfl, by decide, getState_not_found sampleAbsentReconciler sampleRequest rfl⟩

/-- C13: with the request present, `setStateActual` never panics and returns an
error exactly when the pod read fails with an error other than not-found; a
not-found read gives a nil error and an actual container with a nil pod, a
successful read gives the pod that was read, and a failing read makes
`getState` return an error and `Reconcile` return that error with no action
executed. -/
theorem setStateActual_error_iff (r : EtcdBackupReconciler) (state : backupState)
    (backup : EtcdBackup) (hb : state.backup = some backup) :
    ((∃ msg, setStateActual r state = .err msg) ↔
      ∃ e, r.Client.getPod { Name := backup.Name, Namespace := backup.Namespace } = .failed e) ∧
    (∀ p, setStateActual r state ≠ .panic p) ∧
    (r.Client.getPod { Name := backup.Name, Namespace := backup.Namespace } = .notFound →
      setStateActual r state = .ok { state with actual := some { pod := none } }) ∧
    (∀ pod, r.Client.getPod { Name := backup.Name, Namespace := backup.Namespace } = .found pod →
      setStateActual r state = .ok { state with actual := some { pod := some pod } }) ∧
    (∀ (req : Request) (e : String),
      r.Client.getEtcdBackup req.NamespacedName = .found backup →
      r.Client.getPod { Name := backup.Name, Namespace := backup.Namespace } = .failed e →
        getState r req = .err ("setting actual state error: " ++ ("getting pod error: " ++ e)) ∧
        Reconcile r req =
          .ok ⟨[], some ("setting actual state error: " ++ ("getting pod error: " ++ e))⟩) := by
  refine ⟨?_, ?_, ?_, ?_, ?_⟩
  · unfold setStateActual
    simp only [hb]
    cases hpod : r.Client.getPod { Name := backup.Name, Namespace := backup.Namespace } with
    | failed e => simp
    | notFound => simp
    | found pod => simp
  · intro p
    unfold setStateActual
    simp only [hb]
    cases hpod : r.Client.getPod { Name := backup.Name, Namespace := backup.Namespace } <;> simp
  · intro hpod
    simp [setStateActual, hb, hpod]
  · intro pod hpod
    simp [setStateActual, hb, hpod]
  · intro req e hget hpod
    have hstate : getState r req =
        .err ("setting actual state error: " ++ ("getting pod error: " ++ e)) := by
      simp [getState, hget, setStateActual, hpod]
    exact ⟨hstate, by simp [Reconcile, hstate]⟩

theorem setStateActual_error_iff_witness :
    ({ backup := some sampleBackingUp, actual := none, desired := none } : backupState).backup =
      some sampleBackingUp ∧
    setStateActual samplePodErrorReconciler
        { backup := some sampleBackingUp, actual := none, desired := none } =
      .err "getting pod error: connection refused" ∧
    getState samplePodErrorReconciler sampleRequest =
      .err ("setting actual state error: " ++ ("getting pod error: " ++ "connection refused")) ∧
    Reconcile samplePodErrorReconciler sampleRequest =
      .ok ⟨[], some ("setting actual state error: " ++ ("getting pod error: " ++ "connection refused"))⟩ :=
  ⟨rfl, by decide,
    (setStateActual_error_iff samplePodErrorReconciler
      { backup := some sampleBackingUp, actual := none, desired := none } sampleBackingUp rfl).2.2.2.2
      sampleRequest "connection refused" rfl rfl⟩

/-! ## `Reconcile` as a whole -/

/-- C14: every call of `Reconcile` returns (it never panics), calls `Execute` at
most once, and only on the action the switch decided for the state `getState`
returned; it returns an error exactly when `getState` returned an error or the
one executed action failed; and when `getState` succeeded and the switch
decided no action it executes nothing and returns a nil error. -/
theorem Reconcile_at_most_one_action (r : EtcdBackupReconciler) (req : Request) :
    ∃ out, Reconcile r req = .ok out ∧
      out.executed.length ≤ 1 ∧
      (∀ action, action ∈ out.executed →
        ∃ state, getState r req = .ok state ∧ switchAction state = .ok (some action)) ∧
      (out.err.isSome = true ↔
        (∃ msg, getState r req = .err msg) ∨
          ∃ action msg, out.executed = [action] ∧ r.Client.execute action = some msg) ∧
      (∀ state, getState r req = .ok state → switchAction state = .ok none →
        out = { executed := [], err := none }) := by
  cases hstate : getState r req with
  | panic p => exact absurd hstate (getState_ne_panic r req p)
  | err msg =>
    refine ⟨{ executed := [], err := some msg }, by simp [Reconcile, hstate], by simp, ?_, ?_, ?_⟩
    · intro action hmem
      simp at hmem
    · simp
    · intro state hs
      simp at hs
  | ok state =>
    obtain ⟨decided, hswitch⟩ := switchAction_ok_of_getState r req state hstate
    cases decided with
    | none =>
      refine ⟨{ executed := [], err := none }, by simp [Reconcile, hstate, hswitch], by simp,
        ?_, ?_, ?_⟩
      · intro action hmem
        simp at hmem
      · simp
      · intro _ _ _
        rfl
    | some action =>
      cases hexec : r.Client.execute action with
      | none =>
        refine ⟨{ executed := [action], err := none },
          by simp [Reconcile, hstate, hswitch, hexec], by simp, ?_, ?_, ?_⟩
        · intro a hmem
          simp at hmem
          subst hmem
          exact ⟨state, rfl, hswitch⟩
        · simp [hexec]
        · intro state2 hs hnone
          injection hs with hs
          subst hs
          rw [hswitch] at hnone
          simp at hnone
      | some msg =>
        refine ⟨{ executed := [action], err := some msg },
          by simp [Reconcile, hstate, hswitch, hexec], by simp, ?_, ?_, ?_⟩
        · intro a hmem
          simp at hmem
          subst hmem
          exact ⟨state, rfl, hswitch⟩
        · simp [hexec]
        · intro state2 hs hnone
          injection hs with hs
          subst hs
          rw [hswitch] at hnone
          simp at hnone

/-- C15 (counterexample): for a request whose phase is the string "Running" and
whose worker is absent, `getState` returns a state on which the switch yields
CreateObject of the desired pod, although the phase is not BackingUp. -/
theorem create_from_undeclared_phase :
    getState (sampleReconciler sampleRunningPhaseBackup .notFound) sampleRequest =
      .ok { backup := some sampleRunningPhaseBackup, actual := some { pod := none }
            desired := some { pod := some sampleDesiredPod } } ∧
    switchAction { backup := some sampleRunningPhaseBackup, actual := some { pod := none }
                   desired := some { pod := some sampleDesiredPod } } =
      .ok (some (.CreateObject (some sampleDesiredPod))) ∧
    Time.IsZero sampleRunningPhaseBackup.DeletionTimestamp = true ∧
    sampleRunningPhaseBackup.Status.Phase ≠ EtcdBackupPhaseBackingUp := by
  decide

/-- C15 (amended): for every state on which the switch yields CreateObject, the
request is present, is not marked for deletion, the worker is absent, and the
phase of the request is none of empty, Failed and Completed; for a request
whose phase is one of the four declared values it equals BackingUp. -/
theorem createObject_only_when_backingUp (state : backupState) (obj : Option Pod)
    (h : switchAction state = .ok (some (.CreateObject obj))) :
    ∃ backup, state.backup = some backup ∧
      Time.IsZero backup.DeletionTimestamp = true ∧
      state.actual = some { pod := none } ∧
      backup.Status.Phase ≠ "" ∧
      backup.Status.Phase ≠ EtcdBackupPhaseFailed ∧
      backup.Status.Phase ≠ EtcdBackupPhaseCompleted ∧
      (EtcdBackupPhase.declared backup.Status.Phase →
        backup.Status.Phase = EtcdBackupPhaseBackingUp) := by
  obtain ⟨backup, hb, hdel, hunset, hfailed, hcompleted, hactual, -⟩ :=
    createObject_origin state obj h
  refine ⟨backup, hb, hdel, hactual, hunset, hfailed, hcompleted, ?_⟩
  intro hdecl
  rcases hdecl with hd | hd | hd | hd
  · exact absurd hd hunset
  · exact hd
  · exact absurd hd hfailed
  · exact absurd hd hcompleted

theorem createObject_only_when_backingUp_witness :
    switchAction sampleCreateState = .ok (some (.CreateObject (some sampleDesiredPod))) ∧
    EtcdBackupPhase.declared sampleBackingUp.Status.Phase ∧
    ∃ backup, sampleCreateState.backup = some backup ∧
      Time.IsZero backup.DeletionTimestamp = true ∧
      sampleCreateState.actual = some { pod := none } ∧
      backup.Status.Phase ≠ "" ∧
      backup.Status.Phase ≠ EtcdBackupPhaseFailed ∧
      backup.Status.Phase ≠ EtcdBackupPhaseCompleted ∧
      (EtcdBackupPhase.declared backup.Status.Phase →
        backup.Status.Phase = EtcdBackupPhaseBackingUp) :=
  ⟨by decide, by decide,
    createObject_only_when_backingUp sampleCreateState (some sampleDesiredPod) (by decide)⟩
/-- C16: when the request is present, every state `getState` returns holds as
desired pod the pod of `podForBackup` for that request with exactly one owner
reference added, a controller reference that carries the name and UID of the
request and the kind the scheme has for it; and when setting the controller
reference fails, `getState` returns an error, so no desired pod exists, and
`Reconcile` returns that error without executing any action. -/
theorem getState_desired_owned (r : EtcdBackupReconciler) (req : Request) (backup : EtcdBackup)
    (hget : r.Client.getEtcdBackup req.NamespacedName = .found backup) :
    (∀ state, getState r req = .ok state →
      state.backup = some backup ∧
      ∃ gvk ref pod, GVKForObject r.Scheme = .ok gvk ∧
        state.desired = some { pod := some pod } ∧
        pod.ObjectMeta.OwnerReferences = [ref] ∧
        ref.Name = backup.Name ∧ ref.UID = backup.ObjectMeta.UID ∧
        ref.Kind = gvk.Kind ∧ ref.APIVersion = gvk.groupVersionString ∧
        ref.Controller = some true ∧ ref.BlockOwnerDeletion = some true ∧
        pod.ObjectMeta.Name = backup.Name ∧ pod.ObjectMeta.Namespace = backup.Namespace ∧
        pod.Spec = (podForBackup backup).Spec ∧ pod.Status = (podForBackup backup).Status ∧
        { pod with ObjectMeta := { pod.ObjectMeta with OwnerReferences := [] } } =
          podForBackup backup) ∧
    (∀ e, SetControllerReference backup (podForBackup backup) r.Scheme = .error e →
      ∃ msg, getState r req = .err msg ∧
        Reconcile r req = .ok { executed := [], err := some msg }) := by
  constructor
  · intro state hstate
    have hb : state.backup = some backup := by
      cases hsb : state.backup with
      | none =>
        have habsent := (getState_ok_absent r req state hstate hsb).1
        rw [hget] at habsent
        cases habsent
      | some b =>
        have hfound := (getState_ok_present r req state b hstate hsb).1
        rw [hget] at hfound
        injection hfound with hfound
        rw [hfound]
    obtain ⟨-, ⟨pod, hset, hdesired⟩, -⟩ := getState_ok_present r req state backup hstate hb
    rw [SetControllerReference_podForBackup] at hset
    cases hgvk : GVKForObject r.Scheme with
    | error e => simp [hgvk] at hset
    | ok gvk =>
      simp only [hgvk] at hset
      injection hset with hset
      subst hset
      exact ⟨hb, gvk, _, _, rfl, hdesired, rfl, rfl, rfl, rfl, rfl, rfl, rfl, rfl, rfl, rfl, rfl,
        rfl⟩
  · intro e hset
    cases hpod : r.Client.getPod { Name := backup.Name, Namespace := backup.Namespace } with
    | failed msg =>
      have hstate : getState r req =
          .err ("setting actual state error: " ++ ("getting pod error: " ++ msg)) := by
        simp [getState, hget, setStateActual, hpod]
      exact ⟨_, hstate, by simp [Reconcile, hstate]⟩
    | notFound =>
      have hstate : getState r req =
          .err ("setting desired state error: " ++ ("setting controller reference error: " ++ e)) := by
        simp [getState, hget, setStateActual, setStateDesired, hpod, hset]
      exact ⟨_, hstate, by simp [Reconcile, hstate]⟩
    | found pod =>
      have hstate : getState r req =
          .err ("setting desired state error: " ++ ("setting controller reference error: " ++ e)) := by
        simp [getState, hget, setStateActual, setStateDesired, hpod, hset]
      exact ⟨_, hstate, by simp [Reconcile, hstate]⟩

theorem getState_desired_owned_witness :
    (sampleReconciler sampleBackingUp .notFound).Client.getEtcdBackup sampleRequest.NamespacedName =
      .found sampleBackingUp ∧
    getState (sampleReconciler sampleBackingUp .notFound) sampleRequest = .ok sampleCreateState ∧
    sampleCreateState.desired = some { pod := some sampleDesiredPod } ∧
    sampleDesiredPod.ObjectMeta.OwnerReferences.map (fun ref => (ref.Name, ref.UID, ref.Controller)) =
      [("nightly", "uid-1", some true)] ∧
    sampleNoKindReconciler.Client.getEtcdBackup sampleRequest.NamespacedName =
      .found sampleBackingUp ∧
    (∃ e, SetControllerReference sampleBackingUp (podForBackup sampleBackingUp)
      sampleNoKindReconciler.Scheme = .error e) ∧
    (∃ msg, getState sampleNoKindReconciler sampleRequest = .err msg ∧
      Reconcile sampleNoKindReconciler sampleRequest = .ok { executed := [], err := some msg }) ∧
    (sampleCreateState.backup = some sampleBackingUp ∧
      ∃ gvk ref pod, GVKForObject (sampleReconciler sampleBackingUp .notFound).Scheme = .ok gvk ∧
        sampleCreateState.desired = some { pod := some pod } ∧
        pod.ObjectMeta.OwnerReferences = [ref] ∧
        ref.Name = sampleBackingUp.Name ∧ ref.UID = sampleBackingUp.ObjectMeta.UID ∧
        ref.Kind = gvk.Kind ∧ ref.APIVersion = gvk.groupVersionString ∧
        ref.Controller = some true ∧ ref.BlockOwnerDeletion = some true ∧
        pod.ObjectMeta.Name = sampleBackingUp.Name ∧
        pod.ObjectMeta.Namespace = sampleBackingUp.Namespace ∧
        pod.Spec = (podForBackup sampleBackingUp).Spec ∧
        pod.Status = (podForBackup sampleBackingUp).Status ∧
        { pod with ObjectMeta := { pod.ObjectMeta with OwnerReferences := [] } } =
          podForBackup sampleBackingUp) :=
  ⟨rfl, by decide, rfl, by decide, rfl, ⟨_, rfl⟩,
    (getState_desired_owned sampleNoKindReconciler sampleRequest sampleBackingUp rfl).2 _ rfl,
    (getState_desired_owned (sampleReconciler sampleBackingUp .notFound) sampleRequest
      sampleBackingUp rfl).1 sampleCreateState (by decide)⟩

/-- C17: every PatchStatus the switch yields has as original the request of the
observed state, and as new object that request with only `Status.Phase`
changed: object metadata (name, namespace, UID, deletion timestamp, owner
references) and spec (image, endpoints) are those of the original. -/
theorem switchAction_patch_frame (state : backupState) (original new : EtcdBackup)
    (h : switchAction state = .ok (some (.PatchStatus original new))) :
    state.backup = some original ∧
    new = original.withPhase new.Status.Phase ∧
    new.ObjectMeta = original.ObjectMeta ∧
    new.Spec = original.Spec ∧
    new.Name = original.Name ∧ new.Namespace = original.Namespace ∧
    new.Spec.BackupImage = original.Spec.BackupImage ∧
    new.Spec.Endpoints = original.Spec.Endpoints ∧
    new.DeletionTimestamp = original.DeletionTimestamp := by
  obtain ⟨hb, -, hcases⟩ := patchStatus_origin state original new h
  have hnew : ∃ p, new = original.withPhase p := by
    rcases hcases with ⟨-, hn⟩ | ⟨-, -, -, pod, -, ⟨-, hn⟩ | ⟨-, -, hn⟩⟩
    · exact ⟨_, hn⟩
    · exact ⟨_, hn⟩
    · exact ⟨_, hn⟩
  obtain ⟨p, hp⟩ := hnew
  subst hp
  exact ⟨hb, rfl, rfl, rfl, rfl, rfl, rfl, rfl, rfl⟩

theorem switchAction_patch_frame_witness :
    switchAction sampleUnsetState =
      .ok (some (.PatchStatus sampleBackup sampleBackingUp)) ∧
    sampleUnsetState.backup = some sampleBackup ∧
    sampleBackingUp = sampleBackup.withPhase sampleBackingUp.Status.Phase ∧
    sampleBackingUp.ObjectMeta = sampleBackup.ObjectMeta ∧
    sampleBackingUp.Spec = sampleBackup.Spec ∧
    sampleBackingUp.Name = sampleBackup.Name ∧ sampleBackingUp.Namespace = sampleBackup.Namespace ∧
    sampleBackingUp.Spec.BackupImage = sampleBackup.Spec.BackupImage ∧
    sampleBackingUp.Spec.Endpoints = sampleBackup.Spec.Endpoints ∧
    sampleBackingUp.DeletionTimestamp = sampleBackup.DeletionTimestamp :=
  ⟨by decide, switchAction_patch_frame sampleUnsetState sampleBackup sampleBackingUp (by decide)⟩

/-- C18: in every state `getState` returns without error, a non-nil backup comes
with a non-nil actual container, a non-nil desired container and a non-nil
desired pod, so the switch returns an action or nil and never dereferences a
nil pointer, and `Reconcile` does not panic; when the backup is nil the switch
yields no action whatever the two containers are, nil included. -/
theorem getState_containers_set (r : EtcdBackupReconciler) (req : Request) (state : backupState)
    (hstate : getState r req = .ok state) :
    (∀ backup, state.backup = some backup →
      ∃ actual desired pod, state.actual = some actual ∧ state.desired = some desired ∧
        desired.pod = some pod) ∧
    (∃ action, switchAction state = .ok action) ∧
    (∃ out, Reconcile r req = .ok out) ∧
    (∀ actual desired : Option backupStateContainer,
      switchAction { backup := none, actual := actual, desired := desired } = .ok none) := by
  refine ⟨?_, switchAction_ok_of_getState r req state hstate, ?_, ?_⟩
  · intro backup hb
    obtain ⟨-, ⟨pod, -, hdesired⟩, hactual⟩ := getState_ok_present r req state backup hstate hb
    rcases hactual with ⟨-, ha⟩ | ⟨p, -, ha⟩
    · exact ⟨_, _, pod, ha, hdesired, rfl⟩
    · exact ⟨_, _, pod, ha, hdesired, rfl⟩
  · obtain ⟨decided, hswitch⟩ := switchAction_ok_of_getState r req state hstate
    cases decided with
    | none => exact ⟨{ executed := [], err := none }, by simp [Reconcile, hstate, hswitch]⟩
    | some action =>
      cases hexec : r.Client.execute action with
      | none =>
        exact ⟨{ executed := [action], err := none }, by simp [Reconcile, hstate, hswitch, hexec]⟩
      | some msg =>
        exact ⟨{ executed := [action], err := some msg },
          by simp [Reconcile, hstate, hswitch, hexec]⟩
  · intro actual desired
    rfl

theorem getState_containers_set_witness :
    getState (sampleReconciler sampleBackingUp .notFound) sampleRequest = .ok sampleCreateState ∧
    (∀ backup, sampleCreateState.backup = some backup →
      ∃ actual desired pod, sampleCreateState.actual = some actual ∧
        sampleCreateState.desired = some desired ∧ desired.pod = some pod) ∧
    (∃ action, switchAction sampleCreateState = .ok action) ∧
    (∃ out, Reconcile (sampleReconciler sampleBackingUp .notFound) sampleRequest = .ok out) ∧
    (∀ actual desired : Option backupStateContainer,
      switchAction { backup := none, actual := actual, desired := desired } = .ok none) :=
  ⟨by decide,
    getState_containers_set (sampleReconciler sampleBackingUp .notFound) sampleRequest
      sampleCreateState (by decide)⟩

end EtcdOperator
